import Mathlib

/-!
Verification development for the hgijson primitive serialization layer.

The embedding models `src/hgijson/serializers.py` directly. The base classes
`Serializer` and `Deserializer` (module `hgijson.serialization`) and the typed
codecs (module `hgijson.json.primitive`) are not part of the visible source;
where a definition depends on them it is modelled from the specification, as
its doc comment records.

Python values are embedded as the inductive type `PyValue`. Python floats are
modelled at the precision their textual form carries, as finite decimals
(`Dec`), following the specification wording for the typed literal round trip.
A failing Python `assert` (an `AssertionError`) is embedded as the
`contractViolation` fault; other raised errors are `Except.error` values.
Methods that could mutate their receiver return the receiver after the call
alongside the result, so the absence of mutation is visible in the type.
-/

/-- A type tag used to select which serializer or deserializer applies, as in
the specification data model. `object` is the Python builtin `object` type used
by `PrimitiveDeserializer.__init__`; every other class is identified by name. -/
inductive SerializableType where
  | object : SerializableType
  | named : String → SerializableType
deriving DecidableEq, Repr

/-- A finite decimal: the value a Python float literal such as `12.3` denotes,
at the precision the text carries. `fracDigits` are the digits after the
decimal point, most significant first. -/
structure Dec where
  neg : Bool
  intPart : Nat
  fracDigits : List (Fin 10)
deriving DecidableEq, Repr

/-- Embedding of the Python values the serializers handle: the JSON-primitive
scalars (string, number, boolean, None) together with the composite shapes
(lists, string-keyed dicts). -/
inductive PyValue where
  | str : String → PyValue
  | int : Int → PyValue
  | float : Dec → PyValue
  | bool : Bool → PyValue
  | none : PyValue
  | list : List PyValue → PyValue
  | dict : List (String × PyValue) → PyValue
deriving Repr

/-- Whether a value is a JsonPrimitive scalar in the sense of the
specification: string, number, boolean, or null. -/
def isJsonPrimitiveScalar : PyValue → Bool
  | .str _ => true
  | .int _ => true
  | .float _ => true
  | .bool _ => true
  | .none => true
  | .list _ => false
  | .dict _ => false

/-- The error kinds of the specification error model. `contractViolation` is
the assertion-style fault raised by a failing Python `assert`. -/
inductive JsonError where
  | contractViolation : JsonError
  | unresolvedDelegateType : SerializableType → JsonError
  | invalidLiteral : String → JsonError
  | malformedInput : JsonError
deriving DecidableEq, Repr

/-- Modelled from the spec: the base class `Serializer` of module
`hgijson.serialization` is not under `src/`. Per the specification, its
construction takes the set of nested serializable types the instance can
delegate to, plus implementation-specific arguments; the instance owns that
delegate set for its whole lifetime. -/
structure Serializer where
  nestedTypes : List SerializableType
  extraArgs : List PyValue
  extraKwargs : List (String × PyValue)

/-- Modelled from the spec: the base class `Deserializer` of module
`hgijson.serialization` is not under `src/`. Per the specification, its
construction takes the set of nested serializable types and the target type
the instance produces. -/
structure Deserializer where
  nestedTypes : List SerializableType
  targetType : SerializableType
deriving DecidableEq, Repr

/-- Embedding of `PrimitiveSerializer.__init__` (src/hgijson/serializers.py
lines 11 to 12): `super().__init__((), *args, **kwargs)` passes the empty
tuple as the nested-type set and forwards the caller arguments to the base. -/
def PrimitiveSerializer.init (args : List PyValue)
    (kwargs : List (String × PyValue)) : Serializer :=
  { nestedTypes := [], extraArgs := args, extraKwargs := kwargs }

/-- Embedding of `PrimitiveSerializer.serialize` (src/hgijson/serializers.py
lines 14 to 15): `return serializable`. The pair carries the receiver after
the call. -/
def PrimitiveSerializer.serialize (self : Serializer) (serializable : PyValue) :
    PyValue × Serializer :=
  (serializable, self)

/-- Embedding of `PrimitiveSerializer._create_serializer_of_type`
(src/hgijson/serializers.py lines 17 to 18): the body is `assert False`, so
the call always raises `AssertionError`, embedded as `contractViolation`. -/
def PrimitiveSerializer._create_serializer_of_type (self : Serializer)
    (serializer_type : SerializableType) : Except JsonError Serializer :=
  Except.error JsonError.contractViolation

/-- Embedding of `PrimitiveSerializer._create_serialized_container`
(src/hgijson/serializers.py lines 20 to 21): the body is `assert False`. -/
def PrimitiveSerializer._create_serialized_container (self : Serializer) :
    Except JsonError PyValue :=
  Except.error JsonError.contractViolation

/-- Embedding of `PrimitiveDeserializer.__init__` (src/hgijson/serializers.py
lines 28 to 29): `super().__init__((), object)` discards every caller-supplied
argument and constructs with the empty nested-type set and target `object`. -/
def PrimitiveDeserializer.init (args : List PyValue)
    (kwargs : List (String × PyValue)) : Deserializer :=
  { nestedTypes := [], targetType := SerializableType.object }

/-- Embedding of `PrimitiveDeserializer.deserialize`
(src/hgijson/serializers.py lines 31 to 32): `return
object_property_value_dict`. The pair carries the receiver after the call. -/
def PrimitiveDeserializer.deserialize (self : Deserializer)
    (object_property_value_dict : PyValue) : PyValue × Deserializer :=
  (object_property_value_dict, self)

/-- Embedding of `PrimitiveDeserializer._create_deserializer_of_type`
(src/hgijson/serializers.py lines 34 to 35): the body is `assert False`. -/
def PrimitiveDeserializer._create_deserializer_of_type (self : Deserializer)
    (deserializer_type : SerializableType) : Except JsonError Deserializer :=
  Except.error JsonError.contractViolation

/-- The character of a single decimal digit value. -/
def digitChar (d : Nat) : Char := Char.ofNat (48 + d)

/-- The digit value of a character, when it is a decimal digit. -/
def digitVal (c : Char) : Option (Fin 10) :=
  if h : 48 ≤ c.toNat ∧ c.toNat ≤ 57 then some ⟨c.toNat - 48, by omega⟩
  else Option.none

/-- Splits a character list into its longest prefix of decimal digits,
returned as digit values, and the remainder. -/
def spanDigits : List Char → List (Fin 10) × List Char
  | [] => ([], [])
  | c :: cs =>
    match digitVal c with
    | some d => ((spanDigits cs).1.cons d, (spanDigits cs).2)
    | Option.none => ([], c :: cs)

/-- The number a list of digit values denotes, most significant first. -/
def digitsToNat (ds : List (Fin 10)) : Nat :=
  ds.foldl (fun a d => a * 10 + d.val) 0

/-- Renders a natural number in decimal onto an accumulator of characters. -/
def natToDigitsAux (n : Nat) (acc : List Char) : List Char :=
  if n < 10 then digitChar n :: acc
  else natToDigitsAux (n / 10) (digitChar (n % 10) :: acc)
termination_by n
decreasing_by omega

/-- The decimal character rendering of a natural number. -/
def natToDigits (n : Nat) : List Char := natToDigitsAux n []

/-- The digit values of a natural number, most significant first. -/
def digitsOf (n : Nat) : List (Fin 10) :=
  if h : n < 10 then [⟨n, h⟩]
  else digitsOf (n / 10) ++ [⟨n % 10, Nat.mod_lt n (by omega)⟩]
termination_by n
decreasing_by omega

/-- The decimal textual form of an integer, as Python `str` renders it. -/
def renderInt (n : Int) : String :=
  if n < 0 then String.mk ('-' :: natToDigits n.natAbs)
  else String.mk (natToDigits n.natAbs)

/-- Parses a nonempty all-digit character list as a natural number. -/
def parseDigits (cs : List Char) : Option Nat :=
  match spanDigits cs with
  | ([], _) => Option.none
  | (_, _ :: _) => Option.none
  | (ds, []) => some (digitsToNat ds)

/-- Parses the textual form of an integer (optional minus sign followed by
decimal digits), as Python `int` does on such literals. -/
def parseIntLiteral (s : String) : Option Int :=
  match s.data with
  | [] => Option.none
  | c :: cs =>
    if c = '-' then (parseDigits cs).map (fun n => -(Int.ofNat n))
    else (parseDigits (c :: cs)).map (fun n => Int.ofNat n)

/-- The textual form of a finite decimal, as Python renders a float literal:
optional minus sign, integer-part digits, a decimal point when there are
fractional digits. -/
def Dec.render (d : Dec) : String :=
  let core := natToDigits d.intPart ++
    (if d.fracDigits.isEmpty then []
     else '.' :: d.fracDigits.map (fun x => digitChar x.val))
  if d.neg then String.mk ('-' :: core) else String.mk core

/-- Parses an unsigned decimal literal (digits, optionally a point followed by
digits) into a finite decimal with the given sign. -/
def parseUnsignedDec (neg : Bool) (cs : List Char) : Option Dec :=
  if (spanDigits cs).1 = [] then Option.none
  else if (spanDigits cs).2 = [] then some ⟨neg, digitsToNat (spanDigits cs).1, []⟩
  else if (spanDigits cs).2.head? = some '.' then
    if (spanDigits (spanDigits cs).2.tail).1 = [] then Option.none
    else if (spanDigits (spanDigits cs).2.tail).2 = [] then
      some ⟨neg, digitsToNat (spanDigits cs).1, (spanDigits (spanDigits cs).2.tail).1⟩
    else Option.none
  else Option.none

/-- Parses the textual form of a float (optional minus sign followed by a
decimal literal), as Python `float` does on such literals. -/
def parseFloatLiteral (s : String) : Option Dec :=
  match s.data with
  | [] => Option.none
  | c :: cs =>
    if c = '-' then parseUnsignedDec true cs
    else parseUnsignedDec false (c :: cs)

/-- Modelled from the spec: `IntJSONDecoder` of module `hgijson.json.primitive`
is not under `src/` (only its tests are). Per the specification, the
integer-specialized codec parses a textual integer literal, raising a distinct
InvalidLiteral parse error when the text is not a valid integer literal. -/
def IntJSONDecoder.decode (s : String) : Except JsonError PyValue :=
  match parseIntLiteral s with
  | some n => Except.ok (PyValue.int n)
  | Option.none => Except.error (JsonError.invalidLiteral s)

/-- Modelled from the spec: `FloatJSONDecoder` of module
`hgijson.json.primitive` is not under `src/` (only its tests are). Per the
specification, the float-specialized codec parses a textual float literal at
the precision the text carries, raising a distinct InvalidLiteral parse error
when the text is not a valid float literal. -/
def FloatJSONDecoder.decode (s : String) : Except JsonError PyValue :=
  match parseFloatLiteral s with
  | some d => Except.ok (PyValue.float d)
  | Option.none => Except.error (JsonError.invalidLiteral s)

/-- Modelled from the spec: `StrJSONEncoder` of module `hgijson.json.primitive`
is not under `src/` (only its tests are). Per the specification, the
string-specialized codec encodes a JSON-primitive scalar as its textual form,
as Python `str` renders it; the specification defines the encoder on scalars
only, so composite shapes render as the empty string here. -/
def StrJSONEncoder.default : PyValue → String
  | .str s => s
  | .int n => renderInt n
  | .float d => Dec.render d
  | .bool b => if b then "True" else "False"
  | .none => "None"
  | .list _ => ""
  | .dict _ => ""

/-- A delegate in the composite registry model: the transformation the
registered sub-serializer or sub-deserializer applies to a nested value. -/
def DelegateFun : Type := PyValue → PyValue

/-- Modelled from the spec: delegate resolution in the composite base classes
of module `hgijson.serialization`, which is not under `src/`. Per the
specification, the delegate set maps each nested serializable type to its
delegate, and resolving a type with no registered delegate signals a distinct
UnresolvedDelegateType error naming the missing type, never a silent
fallback. -/
def resolveDelegate (delegates : List (SerializableType × DelegateFun))
    (t : SerializableType) : Except JsonError DelegateFun :=
  match delegates with
  | [] => Except.error (JsonError.unresolvedDelegateType t)
  | (t0, d) :: rest => if t0 = t then Except.ok d else resolveDelegate rest t

/-- Modelled from the spec: the property loop of a composite serializer. Each
property carries its name, its declared nested type and its value; the
registered delegate serializes each value, and an unresolvable type surfaces
its error. -/
def serializeProps (delegates : List (SerializableType × DelegateFun)) :
    List (String × SerializableType × PyValue) →
    Except JsonError (List (String × PyValue))
  | [] => Except.ok []
  | (name, t, v) :: rest =>
    match resolveDelegate delegates t with
    | Except.ok g => (serializeProps delegates rest).map
        (fun ps => (name, g v) :: ps)
    | Except.error e => Except.error e

/-- Modelled from the spec: `serialize` on a composite serializer assembles
the delegated property results into a JSON mapping. -/
def CompositeSerializer.serialize
    (delegates : List (SerializableType × DelegateFun))
    (fields : List (String × SerializableType × PyValue)) :
    Except JsonError PyValue :=
  (serializeProps delegates fields).map PyValue.dict

/-- Modelled from the spec: `deserialize` on a composite deserializer resolves
the deserializer registered for each declared nested property type, applies it
to the corresponding sub-value, and assembles the constructed properties of
the target object. -/
def CompositeDeserializer.deserialize
    (delegates : List (SerializableType × DelegateFun))
    (fields : List (String × SerializableType × PyValue)) :
    Except JsonError (List (String × PyValue)) :=
  serializeProps delegates fields

/-- The declared type of the first property whose type has no registered
delegate, when one exists. -/
def firstMissing (delegates : List (SerializableType × DelegateFun)) :
    List (String × SerializableType × PyValue) → Option SerializableType
  | [] => Option.none
  | (_, t, _) :: rest =>
    match resolveDelegate delegates t with
    | Except.ok _ => firstMissing delegates rest
    | Except.error _ => some t

lemma digitVal_digitChar (d : Nat) (h : d < 10) : digitVal (digitChar d) = some ⟨d, h⟩ := by
  interval_cases d <;> rfl

lemma natToDigitsAux_append (n : Nat) : ∀ acc, natToDigitsAux n acc = natToDigitsAux n [] ++ acc := by
  induction n using Nat.strong_induction_on with
  | _ n ih =>
    intro acc
    by_cases h : n < 10
    · rw [natToDigitsAux, if_pos h]
      conv_rhs => rw [natToDigitsAux, if_pos h]
      rfl
    · rw [natToDigitsAux, if_neg h]
      conv_rhs => rw [natToDigitsAux, if_neg h]
      rw [ih (n / 10) (by omega), ih (n / 10) (by omega) [digitChar (n % 10)]]
      simp

lemma spanDigits_cons_digit (d : Fin 10) (cs : List Char) :
    spanDigits (digitChar d.val :: cs) =
      ((spanDigits cs).1.cons d, (spanDigits cs).2) := by
  rw [spanDigits, digitVal_digitChar d.val d.isLt]

lemma spanDigits_natToDigitsAux (n : Nat) : ∀ acc,
    spanDigits (natToDigitsAux n acc) =
      (digitsOf n ++ (spanDigits acc).1, (spanDigits acc).2) := by
  induction n using Nat.strong_induction_on with
  | _ n ih =>
    intro acc
    by_cases h : n < 10
    · rw [natToDigitsAux, if_pos h, digitsOf, dif_pos h]
      have := spanDigits_cons_digit ⟨n, h⟩ acc
      simp only [List.cons_append, List.nil_append] at this ⊢
      exact this
    · rw [natToDigitsAux, if_neg h, digitsOf, dif_neg h]
      rw [ih (n / 10) (by omega)]
      have := spanDigits_cons_digit ⟨n % 10, Nat.mod_lt n (by omega)⟩ acc
      rw [this]
      simp

lemma foldl_digits_shift (ds : List (Fin 10)) : ∀ a : Nat,
    ds.foldl (fun a d => a * 10 + d.val) a =
      a * 10 ^ ds.length + ds.foldl (fun a d => a * 10 + d.val) 0 := by
  induction ds with
  | nil => intro a; simp
  | cons d ds ih =>
    intro a
    simp only [List.foldl_cons, List.length_cons]
    rw [ih (a * 10 + d.val), ih (0 * 10 + d.val)]
    ring

lemma digitsToNat_digitsOf (n : Nat) : digitsToNat (digitsOf n) = n := by
  induction n using Nat.strong_induction_on with
  | _ n ih =>
    by_cases h : n < 10
    · rw [digitsOf, dif_pos h]
      simp [digitsToNat]
    · rw [digitsOf, dif_neg h]
      unfold digitsToNat
      rw [List.foldl_append]
      have := ih (n / 10) (by omega)
      unfold digitsToNat at this
      rw [this]
      simp only [List.foldl_cons, List.foldl_nil]
      omega

lemma digitsOf_ne_nil (n : Nat) : digitsOf n ≠ [] := by
  rw [digitsOf]
  split <;> simp

lemma parseDigits_natToDigits (m : Nat) : parseDigits (natToDigits m) = some m := by
  have hspan : spanDigits (natToDigits m) = (digitsOf m, []) := by
    have := spanDigits_natToDigitsAux m []
    simpa [natToDigits, spanDigits] using this
  rw [parseDigits, hspan]
  obtain ⟨d, ds, hds⟩ : ∃ d ds, digitsOf m = d :: ds := by
    cases h : digitsOf m with
    | nil => exact absurd h (digitsOf_ne_nil m)
    | cons d ds => exact ⟨d, ds, rfl⟩
  rw [hds]
  simp only []
  rw [← hds, digitsToNat_digitsOf]

lemma natToDigits_head_digit (n : Nat) :
    ∃ c cs, natToDigits n = c :: cs ∧ digitVal c ≠ Option.none := by
  have hspan : spanDigits (natToDigits n) = (digitsOf n, []) := by
    have := spanDigits_natToDigitsAux n []
    simpa [natToDigits, spanDigits] using this
  cases hn : natToDigits n with
  | nil =>
    rw [hn, spanDigits] at hspan
    exact absurd (congrArg Prod.fst hspan).symm (by simpa using digitsOf_ne_nil n)
  | cons c cs =>
    refine ⟨c, cs, rfl, ?_⟩
    intro hd
    rw [hn, spanDigits, hd] at hspan
    exact absurd (congrArg Prod.fst hspan).symm (by simpa using digitsOf_ne_nil n)

lemma parseIntLiteral_renderInt (n : Int) : parseIntLiteral (renderInt n) = some n := by
  by_cases hn : n < 0
  · rw [renderInt, if_pos hn, parseIntLiteral]
    show (if '-' = '-' then Option.map (fun m => -Int.ofNat m) (parseDigits (natToDigits n.natAbs))
      else Option.map (fun m => Int.ofNat m) (parseDigits ('-' :: natToDigits n.natAbs))) = some n
    rw [if_pos rfl, parseDigits_natToDigits]
    simp only [Option.map_some', Int.ofNat_eq_natCast]
    congr 1
    omega
  · rw [renderInt, if_neg hn]
    obtain ⟨c, cs, hc, hd⟩ := natToDigits_head_digit n.natAbs
    have hcne : ¬ c = '-' := by
      intro h
      exact hd (h ▸ rfl)
    rw [hc, parseIntLiteral]
    show (if c = '-' then Option.map (fun m => -Int.ofNat m) (parseDigits cs)
      else Option.map (fun m => Int.ofNat m) (parseDigits (c :: cs))) = some n
    rw [if_neg hcne, ← hc, parseDigits_natToDigits]
    simp only [Option.map_some', Int.ofNat_eq_natCast]
    congr 1
    omega

lemma spanDigits_map_digitChar (fp : List (Fin 10)) :
    spanDigits (fp.map (fun x => digitChar x.val)) = (fp, []) := by
  induction fp with
  | nil => rfl
  | cons d ds ih =>
    simp only [List.map_cons]
    rw [spanDigits_cons_digit d, ih]

lemma parseUnsignedDec_render (neg : Bool) (ip : Nat) (fp : List (Fin 10)) (hfp : fp ≠ []) :
    parseUnsignedDec neg
      (natToDigits ip ++ '.' :: fp.map (fun x => digitChar x.val)) =
      some ⟨neg, ip, fp⟩ := by
  have hspan1 : spanDigits (natToDigits ip ++ '.' :: fp.map (fun x => digitChar x.val)) =
      (digitsOf ip, '.' :: fp.map (fun x => digitChar x.val)) := by
    rw [natToDigits, ← natToDigitsAux_append ip]
    rw [spanDigits_natToDigitsAux ip]
    rw [spanDigits]
    simp [digitVal]
  rw [parseUnsignedDec, hspan1]
  dsimp only
  rw [if_neg (digitsOf_ne_nil ip)]
  rw [if_neg (by simp : ¬ ('.' :: fp.map (fun x => digitChar x.val)) = [])]
  rw [if_pos (List.head?_cons : ('.' :: fp.map (fun x => digitChar x.val)).head? = some '.')]
  dsimp only [List.tail_cons]
  rw [spanDigits_map_digitChar]
  dsimp only
  rw [if_neg hfp, if_pos rfl, digitsToNat_digitsOf]

lemma parseFloatLiteral_render (d : Dec) (hfp : d.fracDigits ≠ []) :
    parseFloatLiteral (Dec.render d) = some d := by
  obtain ⟨neg, ip, fp⟩ := d
  simp only at hfp
  have hcore : (natToDigits ip ++
      (if fp.isEmpty then [] else '.' :: fp.map (fun x => digitChar x.val))) =
      natToDigits ip ++ '.' :: fp.map (fun x => digitChar x.val) := by
    rw [if_neg (by simpa using hfp)]
  by_cases hneg : neg = true
  · subst hneg
    rw [Dec.render]
    dsimp only
    rw [hcore, if_pos rfl, parseFloatLiteral]
    simp only [String.data]
    show (if '-' = '-' then
        parseUnsignedDec true (natToDigits ip ++ '.' :: fp.map (fun x => digitChar x.val))
      else parseUnsignedDec false
        ('-' :: (natToDigits ip ++ '.' :: fp.map (fun x => digitChar x.val)))) =
      some ⟨true, ip, fp⟩
    rw [if_pos rfl, parseUnsignedDec_render true ip fp hfp]
  · have hneg' : neg = false := by
      cases neg
      · rfl
      · exact absurd rfl hneg
    subst hneg'
    rw [Dec.render]
    dsimp only
    rw [hcore, if_neg (by simp)]
    obtain ⟨c, cs, hc, hd⟩ := natToDigits_head_digit ip
    have hcne : ¬ c = '-' := by
      intro h
      exact hd (h ▸ rfl)
    rw [hc, List.cons_append, parseFloatLiteral]
    simp only [String.data]
    show (if c = '-' then parseUnsignedDec true (cs ++ '.' :: fp.map (fun x => digitChar x.val))
      else parseUnsignedDec false
        (c :: (cs ++ '.' :: fp.map (fun x => digitChar x.val)))) = some ⟨false, ip, fp⟩
    rw [if_neg hcne, ← List.cons_append, ← hc, parseUnsignedDec_render false ip fp hfp]

lemma resolveDelegate_error_eq (ds : List (SerializableType × DelegateFun))
    (t : SerializableType) (e : JsonError) (h : resolveDelegate ds t = Except.error e) :
    e = JsonError.unresolvedDelegateType t := by
  induction ds with
  | nil =>
    rw [resolveDelegate] at h
    exact (Except.error.inj h).symm
  | cons p rest ih =>
    rw [resolveDelegate] at h
    by_cases hp : p.1 = t
    · rw [if_pos hp] at h
      exact absurd h (by simp)
    · rw [if_neg hp] at h
      exact ih h

lemma serializeProps_firstMissing (ds : List (SerializableType × DelegateFun)) :
    ∀ (fields : List (String × SerializableType × PyValue)) (t : SerializableType),
    firstMissing ds fields = some t →
    serializeProps ds fields = Except.error (JsonError.unresolvedDelegateType t) ∧
    resolveDelegate ds t = Except.error (JsonError.unresolvedDelegateType t) := by
  intro fields
  induction fields with
  | nil =>
    intro t h
    rw [firstMissing] at h
    exact absurd h (by simp)
  | cons f rest ih =>
    intro t h
    obtain ⟨name, t0, v⟩ := f
    rw [firstMissing] at h
    rw [serializeProps]
    cases hres : resolveDelegate ds t0 with
    | ok g =>
      rw [hres] at h
      dsimp only at h
      obtain ⟨h1, h2⟩ := ih t h
      rw [h1]
      exact ⟨by simp [Except.map], h2⟩
    | error e =>
      rw [hres] at h
      dsimp only at h
      have ht : t0 = t := Option.some.inj h
      subst ht
      have he : e = JsonError.unresolvedDelegateType t0 := resolveDelegate_error_eq ds t0 e hres
      subst he
      exact ⟨rfl, hres⟩

/-- C1: for every value satisfying the JsonPrimitive-scalar precondition,
`PrimitiveSerializer.serialize` returns it unchanged and
`PrimitiveDeserializer.deserialize` returns it unchanged, and neither call
has side effects on its instance. -/
theorem primitive_identity_no_side_effects :
    ∀ (s : Serializer) (d : Deserializer) (v : PyValue),
      isJsonPrimitiveScalar v = true →
      PrimitiveSerializer.serialize s v = (v, s) ∧
      PrimitiveDeserializer.deserialize d v = (v, d) :=
  fun _ _ _ _ => ⟨rfl, rfl⟩

/-- Witness for C1 at the concrete scalar 5 on freshly constructed codecs. -/
theorem primitive_identity_no_side_effects_witness :
    isJsonPrimitiveScalar (PyValue.int 5) = true ∧
    PrimitiveSerializer.serialize (PrimitiveSerializer.init [] [])
      (PyValue.int 5) = (PyValue.int 5, PrimitiveSerializer.init [] []) ∧
    PrimitiveDeserializer.deserialize (PrimitiveDeserializer.init [] [])
      (PyValue.int 5) = (PyValue.int 5, PrimitiveDeserializer.init [] []) :=
  ⟨rfl,
   (primitive_identity_no_side_effects (PrimitiveSerializer.init [] [])
     (PrimitiveDeserializer.init [] []) (PyValue.int 5) rfl).1,
   (primitive_identity_no_side_effects (PrimitiveSerializer.init [] [])
     (PrimitiveDeserializer.init [] []) (PyValue.int 5) rfl).2⟩

/-- C2: for every type argument, each delegate-resolution entry point of the
primitive codec (`_create_serializer_of_type`, `_create_serialized_container`,
`_create_deserializer_of_type`) signals the assertion-style ContractViolation
fault; it never returns normally and never any other error. -/
theorem primitive_terminal_contract_violation :
    ∀ (s : Serializer) (d : Deserializer) (t : SerializableType),
      PrimitiveSerializer._create_serializer_of_type s t =
        Except.error JsonError.contractViolation ∧
      PrimitiveSerializer._create_serialized_container s =
        Except.error JsonError.contractViolation ∧
      PrimitiveDeserializer._create_deserializer_of_type d t =
        Except.error JsonError.contractViolation :=
  fun _ _ _ => ⟨rfl, rfl, rfl⟩

/-- C3: composing the primitive codec operations in either order is the
identity on every JSON-primitive scalar. -/
theorem primitive_round_trip_identity :
    ∀ (s : Serializer) (d : Deserializer) (v : PyValue),
      isJsonPrimitiveScalar v = true →
      (PrimitiveDeserializer.deserialize d
        (PrimitiveSerializer.serialize s v).1).1 = v ∧
      (PrimitiveSerializer.serialize s
        (PrimitiveDeserializer.deserialize d v).1).1 = v :=
  fun _ _ _ _ => ⟨rfl, rfl⟩

/-- Witness for C3 at the concrete scalar string value. -/
theorem primitive_round_trip_identity_witness :
    isJsonPrimitiveScalar (PyValue.str "a") = true ∧
    (PrimitiveDeserializer.deserialize (PrimitiveDeserializer.init [] [])
      (PrimitiveSerializer.serialize (PrimitiveSerializer.init [] [])
        (PyValue.str "a")).1).1 = PyValue.str "a" :=
  ⟨rfl,
   (primitive_round_trip_identity (PrimitiveSerializer.init [] [])
     (PrimitiveDeserializer.init [] []) (PyValue.str "a") rfl).1⟩

/-- C4: `serialize` and `deserialize` are deterministic and stateless: with
equal inputs, repeated calls on the same instance return equal outputs, and
no call changes the instance or its delegate set. -/
theorem primitive_stateless_under_reuse :
    ∀ (s : Serializer) (d : Deserializer) (v w : PyValue), v = w →
      (PrimitiveSerializer.serialize s v).1 =
        (PrimitiveSerializer.serialize
          (PrimitiveSerializer.serialize s v).2 w).1 ∧
      (PrimitiveSerializer.serialize
        (PrimitiveSerializer.serialize
          (PrimitiveSerializer.serialize s v).2 w).2 v).1 =
        (PrimitiveSerializer.serialize s v).1 ∧
      (PrimitiveSerializer.serialize s v).2 = s ∧
      (PrimitiveSerializer.serialize s v).2.nestedTypes = s.nestedTypes ∧
      (PrimitiveDeserializer.deserialize d v).1 =
        (PrimitiveDeserializer.deserialize
          (PrimitiveDeserializer.deserialize d v).2 w).1 ∧
      (PrimitiveDeserializer.deserialize d v).2 = d ∧
      (PrimitiveDeserializer.deserialize d v).2.nestedTypes = d.nestedTypes := by
  intro s d v w hvw
  subst hvw
  exact ⟨rfl, rfl, rfl, rfl, rfl, rfl, rfl⟩

/-- Witness for C4 at a concrete pair of equal boolean inputs. -/
theorem primitive_stateless_under_reuse_witness :
    (PrimitiveSerializer.serialize (PrimitiveSerializer.init [] [])
      (PyValue.bool true)).2 = PrimitiveSerializer.init [] [] ∧
    (PrimitiveDeserializer.deserialize (PrimitiveDeserializer.init [] [])
      (PyValue.bool true)).2 = PrimitiveDeserializer.init [] [] :=
  ⟨(primitive_stateless_under_reuse (PrimitiveSerializer.init [] [])
      (PrimitiveDeserializer.init [] []) (PyValue.bool true)
      (PyValue.bool true) rfl).2.2.1,
   (primitive_stateless_under_reuse (PrimitiveSerializer.init [] [])
      (PrimitiveDeserializer.init [] []) (PyValue.bool true)
      (PyValue.bool true) rfl).2.2.2.2.2.1⟩

/-- C5: decoding the textual form of any integer with the integer-specialized
codec yields that integer, and decoding the textual form of any finite
decimal with the float-specialized codec yields it at the precision the text
carries; in particular decoding "123" yields 123 and decoding "12.3" yields
12.3. -/
theorem typed_literal_round_trip :
    (∀ n : Int, IntJSONDecoder.decode (renderInt n) =
      Except.ok (PyValue.int n)) ∧
    (∀ d : Dec, d.fracDigits ≠ [] →
      FloatJSONDecoder.decode (Dec.render d) = Except.ok (PyValue.float d)) ∧
    IntJSONDecoder.decode "123" = Except.ok (PyValue.int 123) ∧
    FloatJSONDecoder.decode "12.3" =
      Except.ok (PyValue.float ⟨false, 12, [3]⟩) := by
  refine ⟨?_, ?_, rfl, rfl⟩
  · intro n
    rw [IntJSONDecoder.decode, parseIntLiteral_renderInt]
  · intro d hd
    rw [FloatJSONDecoder.decode, parseFloatLiteral_render d hd]

/-- Witness for C5 at the integer 123 and the finite decimal 12.3. -/
theorem typed_literal_round_trip_witness :
    IntJSONDecoder.decode (renderInt 123) = Except.ok (PyValue.int 123) ∧
    FloatJSONDecoder.decode (Dec.render ⟨false, 12, [3]⟩) =
      Except.ok (PyValue.float ⟨false, 12, [3]⟩) :=
  ⟨typed_literal_round_trip.1 123,
   typed_literal_round_trip.2.1 ⟨false, 12, [3]⟩ (by decide)⟩

/-- C6: encoding with the string-specialized codec produces the textual
representation of the input scalar: 123 encodes to "123" and 12.3 encodes
to "12.3". -/
theorem str_encoder_textual :
    StrJSONEncoder.default (PyValue.int 123) = "123" ∧
    StrJSONEncoder.default (PyValue.float ⟨false, 12, [3]⟩) = "12.3" := by
  constructor
  · show renderInt 123 = "123"
    simp [renderInt, natToDigits, natToDigitsAux, digitChar]
  · show Dec.render ⟨false, 12, [3]⟩ = "12.3"
    simp only [Dec.render, natToDigits]
    rw [natToDigitsAux, natToDigitsAux]
    rfl

/-- C7: a text that is not a valid literal of the specialized scalar kind is
rejected with a distinct InvalidLiteral parse error, never a default value;
in particular "abc" is rejected by both the integer- and float-specialized
codecs. -/
theorem invalid_literal_rejection :
    IntJSONDecoder.decode "abc" =
      Except.error (JsonError.invalidLiteral "abc") ∧
    FloatJSONDecoder.decode "abc" =
      Except.error (JsonError.invalidLiteral "abc") ∧
    (∀ s, parseIntLiteral s = Option.none →
      IntJSONDecoder.decode s = Except.error (JsonError.invalidLiteral s)) ∧
    (∀ s, parseFloatLiteral s = Option.none →
      FloatJSONDecoder.decode s = Except.error (JsonError.invalidLiteral s)) := by
  refine ⟨rfl, rfl, ?_, ?_⟩
  · intro s h
    rw [IntJSONDecoder.decode, h]
  · intro s h
    rw [FloatJSONDecoder.decode, h]

/-- Witness for C7 at the invalid literal "abc" for both codecs. -/
theorem invalid_literal_rejection_witness :
    IntJSONDecoder.decode "abc" =
      Except.error (JsonError.invalidLiteral "abc") ∧
    FloatJSONDecoder.decode "abc" =
      Except.error (JsonError.invalidLiteral "abc") :=
  ⟨invalid_literal_rejection.2.2.1 "abc" rfl,
   invalid_literal_rejection.2.2.2 "abc" rfl⟩

/-- C8: when a composite serializer or deserializer meets a nested value
whose declared type has no registered delegate, the operation signals the
distinct UnresolvedDelegateType error naming the missing type, and never
returns a value as a silent fallback. -/
theorem unresolved_delegate_type_error :
    ∀ (ds : List (SerializableType × DelegateFun))
      (fields : List (String × SerializableType × PyValue))
      (t : SerializableType),
      firstMissing ds fields = some t →
      CompositeSerializer.serialize ds fields =
        Except.error (JsonError.unresolvedDelegateType t) ∧
      CompositeDeserializer.deserialize ds fields =
        Except.error (JsonError.unresolvedDelegateType t) ∧
      resolveDelegate ds t =
        Except.error (JsonError.unresolvedDelegateType t) := by
  intro ds fields t h
  obtain ⟨h1, h2⟩ := serializeProps_firstMissing ds fields t h
  refine ⟨?_, h1, h2⟩
  rw [CompositeSerializer.serialize, h1]
  rfl

/-- Witness for C8: an empty delegate set and one property of an unregistered
named type. -/
theorem unresolved_delegate_type_error_witness :
    CompositeSerializer.serialize []
      [("x", SerializableType.named "C", PyValue.none)] =
      Except.error
        (JsonError.unresolvedDelegateType (SerializableType.named "C")) ∧
    CompositeDeserializer.deserialize []
      [("x", SerializableType.named "C", PyValue.none)] =
      Except.error
        (JsonError.unresolvedDelegateType (SerializableType.named "C")) :=
  ⟨(unresolved_delegate_type_error []
      [("x", SerializableType.named "C", PyValue.none)]
      (SerializableType.named "C") rfl).1,
   (unresolved_delegate_type_error []
      [("x", SerializableType.named "C", PyValue.none)]
      (SerializableType.named "C") rfl).2.1⟩

/-- C9: for every sequence of constructor arguments,
`PrimitiveSerializer.__init__` passes the empty tuple as its nested-type set
to the base class while forwarding the caller arguments, and
`PrimitiveDeserializer.__init__` discards all caller-supplied arguments,
always constructing with the empty delegate set and target type `object`. -/
theorem primitive_init_empty_delegate_set :
    ∀ (args : List PyValue) (kwargs : List (String × PyValue)),
      (PrimitiveSerializer.init args kwargs).nestedTypes = [] ∧
      (PrimitiveSerializer.init args kwargs).extraArgs = args ∧
      (PrimitiveSerializer.init args kwargs).extraKwargs = kwargs ∧
      PrimitiveDeserializer.init args kwargs =
        { nestedTypes := [], targetType := SerializableType.object } :=
  fun _ _ => ⟨rfl, rfl, rfl, rfl⟩

/-- C10: `PrimitiveSerializer.serialize` performs no validation: every input,
including any value that is not a JSON-primitive scalar, is returned
unchanged rather than rejected. -/
theorem primitive_serialize_no_validation :
    (∀ (s : Serializer) (v : PyValue),
      PrimitiveSerializer.serialize s v = (v, s)) ∧
    (∀ (s : Serializer) (v : PyValue), isJsonPrimitiveScalar v = false →
      PrimitiveSerializer.serialize s v = (v, s)) :=
  ⟨fun _ _ => rfl, fun _ _ _ => rfl⟩

/-- Witness for C10 at a concrete non-primitive composite value. -/
theorem primitive_serialize_no_validation_witness :
    isJsonPrimitiveScalar (PyValue.dict []) = false ∧
    PrimitiveSerializer.serialize (PrimitiveSerializer.init [] [])
      (PyValue.dict []) = (PyValue.dict [], PrimitiveSerializer.init [] []) :=
  ⟨rfl,
   primitive_serialize_no_validation.2 (PrimitiveSerializer.init [] [])
     (PyValue.dict []) rfl⟩
